import Mathlib

/-
Verification of the github-blog-sync Obsidian plugin (src/main.ts) against its
natural-language specification.

The embedding models the single meaningful flow, `SyncBlog`, as a pure function
from an environment (the outcomes the version-control library and host return
for each call) and the plugin settings to a trace of issued calls and shown
notifications, plus the value the function returns.  The settings form
(`GithubBlogSyncSettingTab.display`) is modelled as the list of rendered text
fields.
-/

namespace GithubBlogSync

deriving instance DecidableEq for Except

/-- Plugin settings record, mirroring `interface GithubBlogSyncPluginSettings`
(src/main.ts lines 14-21). -/
structure Settings where
  githubUsername : String
  githubRepoUrl : String
  githubPersonalAccessToken : String
  gitDirLocation : String
  nameOfCommit : String
  emailOfCommit : String
deriving DecidableEq

/-- Default settings, mirroring `DEFAULT_SETTINGS` (lines 23-30): six empty strings. -/
def DEFAULT_SETTINGS : Settings :=
  { githubUsername := ""
    githubRepoUrl := ""
    githubPersonalAccessToken := ""
    gitDirLocation := ""
    nameOfCommit := ""
    emailOfCommit := "" }

/-- Node's `path.join` restricted to the plugin's use: two already-normalized
segments joined with a single separator.  (Normalization of `..`, `.` and the
empty-input `"."` result are not exercised by the source, which only joins plain
relative segment names, and are not modelled.) -/
def pathJoin (a b : String) : String :=
  if a = "" then b else if b = "" then a else a ++ "/" ++ b

/-- One row of the status computation (`git.statusMatrix`): the tuple
`[filepath, head, workdir, stage]`.  The code destructures entries 0 and 2
(`([filepath, , worktreeStatus])`, line 49/59). -/
structure StatusRow where
  filepath : String
  headStatus : Nat
  worktreeStatus : Nat
  stageStatus : Nat
deriving DecidableEq

/-- The noise token filtered at lines 50 and 60. -/
def dsStoreName : String := ".DS_Store"

/-- First watched subdirectory (line 47). -/
def publicSub : String := "public"

/-- Second watched subdirectory (line 57). -/
def contentSub : String := "content"

/-- JavaScript `String.prototype.includes`: substring containment. -/
def includes (s pat : String) : Bool :=
  decide (pat.toList <:+: s.toList)

/-- An error value thrown by a library call; `msg` is its displayed description
(the `${e}` interpolation in the notices). -/
structure GitError where
  msg : String
deriving DecidableEq

/-- A per-path index operation: `git.add` or `git.remove`, with the `dir` and
`filepath` arguments the code passes (line 53/63). -/
inductive GitOp where
  | add (dir : String) (filepath : String)
  | remove (dir : String) (filepath : String)
deriving DecidableEq

/-- The `dir` argument of a per-path operation. -/
def opDir : GitOp → String
  | .add d _ => d
  | .remove d _ => d

/-- The `filepath` argument of a per-path operation. -/
def opFile : GitOp → String
  | .add _ f => f
  | .remove _ f => f

/-- Arguments of the `git.commit` call (lines 75-84). -/
structure CommitArgs where
  dir : String
  message : String
  ref : String
  authorName : String
  authorEmail : String
deriving DecidableEq

/-- The credentials object returned by the `onAuth` callback (line 96): the code
returns `{ username: PAT }`, with no password field. -/
structure AuthCreds where
  username : String
  password : Option String
deriving DecidableEq

/-- Arguments of the `git.push` call (lines 91-97).  The code passes no `ref`
argument, so `ref` is `none`. -/
structure PushArgs where
  dir : String
  url : String
  ref : Option String
  auth : AuthCreds
deriving DecidableEq

/-- An observable step of one `SyncBlog` invocation, in issue order: a
`statusMatrix` query, a per-path operation, the commit call, the push call, or
a shown notification (with its optional duration in milliseconds). -/
inductive Event where
  | statusQuery (dir : String)
  | gitOp (op : GitOp)
  | commitCall (args : CommitArgs)
  | pushCall (args : PushArgs)
  | notice (msg : String) (duration : Option Nat)
deriving DecidableEq

/-- Whether an event is the commit call. -/
def isCommitCallEv : Event → Bool
  | .commitCall _ => true
  | _ => false

/-- Whether an event is the push call. -/
def isPushCallEv : Event → Bool
  | .pushCall _ => true
  | _ => false

/-- Whether an event is a per-path operation. -/
def isGitOpEv : Event → Bool
  | .gitOp _ => true
  | _ => false

/-- The filepath a per-path operation event targets, if any. -/
def fileTarget : Event → Option String
  | .gitOp op => some (opFile op)
  | _ => none

/-- The outcomes the outside world (the version-control library and host)
returns for each call `SyncBlog` makes, plus the host data the code reads:
`os.hostname()`, the formatted current date-time (`new Date()` stringified),
and the currently checked-out branch of the working tree. -/
structure Env where
  statusOf : String → Except GitError (List StatusRow)
  opResult : GitOp → Except GitError Unit
  commitResult : CommitArgs → Except GitError Unit
  pushResult : PushArgs → Except GitError Unit
  hostname : String
  now : String
  currentBranch : String

/-- The per-path dispatch of the `status.map` callback (lines 49-54 and 59-64):
skip a path containing the noise token; otherwise `git.add` if the worktree
status is truthy (nonzero), else `git.remove`; in either case the operation
runs with the repository root as `dir` and the subdirectory re-prefixed onto
the reported path. -/
def pathOp (dir sub : String) (row : StatusRow) : Option GitOp :=
  if includes row.filepath dsStoreName then none
  else if row.worktreeStatus ≠ 0 then some (GitOp.add dir (pathJoin sub row.filepath))
  else some (GitOp.remove dir (pathJoin sub row.filepath))

/-- The single operation line 53/63 issues for a non-noise row. -/
def opFor (dir sub : String) (row : StatusRow) : GitOp :=
  if row.worktreeStatus ≠ 0 then GitOp.add dir (pathJoin sub row.filepath)
  else GitOp.remove dir (pathJoin sub row.filepath)

/-- All per-path operations issued for one subdirectory's reported rows. -/
def stageOps (dir sub : String) (rows : List StatusRow) : List GitOp :=
  rows.filterMap (pathOp dir sub)

/-- The outcome of awaiting the batch of per-path operations (`Promise.all`):
the first reported error, or success when every operation succeeds. -/
def firstError (env : Env) : List GitOp → Option GitError
  | [] => none
  | op :: rest =>
    match env.opResult op with
    | .error e => some e
    | .ok _ => firstError env rest

/-- One `statusMatrix`-then-`Promise.all` block (lines 47-56 for `public`,
lines 57-66 for `content`): the events it issues and its outcome.  When the
status computation succeeds, `status.map` creates every per-path promise, so
all operations are issued even if some fail. -/
def stageDir (env : Env) (dir sub : String) : List Event × Option GitError :=
  match env.statusOf (pathJoin dir sub) with
  | .error e => ([Event.statusQuery (pathJoin dir sub)], some e)
  | .ok rows =>
    (Event.statusQuery (pathJoin dir sub) :: (stageOps dir sub rows).map Event.gitOp,
     firstError env (stageOps dir sub rows))

/-- The whole staging try-block (lines 46-70): the `public` block is awaited
first; only when it settles successfully does the `content` block begin. -/
def stagingPhase (env : Env) (dir : String) : List Event × Option GitError :=
  match (stageDir env dir publicSub).2 with
  | some e => ((stageDir env dir publicSub).1, some e)
  | none =>
    ((stageDir env dir publicSub).1 ++ (stageDir env dir contentSub).1,
     (stageDir env dir contentSub).2)

/-- The repository root: `path.join(basePath, DIR)` (line 44). -/
def dirOf (s : Settings) (basePath : String) : String :=
  pathJoin basePath s.gitDirLocation

/-- Arguments of the commit call (lines 75-84): message is
`hostname + ' ' + new Date()`, branch ref is the fixed `'main'`, and the author
identity is the configured name and email, verbatim. -/
def commitArgsOf (env : Env) (s : Settings) (dir : String) : CommitArgs :=
  { dir := dir
    message := env.hostname ++ " " ++ env.now
    ref := "main"
    authorName := s.nameOfCommit
    authorEmail := s.emailOfCommit }

/-- Arguments of the push call (lines 91-97): url is `'https://' + REPO`, no
`ref` argument is passed, and `onAuth` returns the token as username with no
password field. -/
def pushArgsOf (s : Settings) (dir : String) : PushArgs :=
  { dir := dir
    url := "https://" ++ s.githubRepoUrl
    ref := none
    auth := { username := s.githubPersonalAccessToken, password := none } }

/-- Modelled from the library's documented contract (outside src/): the branch
a push call transfers is the `ref` argument when given, else the currently
checked-out branch (the library's default).  The code passes no `ref`. -/
def pushedRef (env : Env) (args : PushArgs) : String :=
  args.ref.getD env.currentBranch

/-- Modelled from the spec: the library presents the `onAuth` credentials as
HTTP basic auth, username = token and password = empty — a missing password
becomes the empty string in the `username:password` userinfo. -/
def basicAuthUserinfo (c : AuthCreds) : String :=
  c.username ++ ":" ++ c.password.getD ""

/-- Notice shown at line 36. -/
def startNoticeMsg : String := "Will push to repository"

/-- Fixed message of the staging-failure notice (line 68), up to the error. -/
def stageFailMsg : String := "Couldn\x27t add updated files. Problem: "

/-- Fixed message of the commit-failure notice (line 86), up to the error. -/
def commitFailMsg : String := "Couldn\x27t commit changes to the branch. Problem: "

/-- Fixed message of the push-failure notice (line 99), up to the error. -/
def pushFailMsg : String := "Couldn\x27t push changes to the repository. Problem: "

/-- Fixed stem of the success notice (line 103), up to the repository path. -/
def successMsgStem : String := "GitHub Blog Sync: Pushed to "

/-- The tail of one invocation after the staging phase: each later step runs
only when every earlier step succeeded; a failing step shows its notice with a
10000 ms duration and makes the function return the caught error
(lines 67-103). -/
def syncTail (env : Env) (s : Settings) (dir : String) : List Event × Option GitError :=
  match (stagingPhase env dir).2 with
  | some e => ([Event.notice (stageFailMsg ++ e.msg) (some 10000)], some e)
  | none =>
    match env.commitResult (commitArgsOf env s dir) with
    | .error e =>
      ([Event.commitCall (commitArgsOf env s dir),
        Event.notice (commitFailMsg ++ e.msg) (some 10000)], some e)
    | .ok _ =>
      match env.pushResult (pushArgsOf s dir) with
      | .error e =>
        ([Event.commitCall (commitArgsOf env s dir),
          Event.pushCall (pushArgsOf s dir),
          Event.notice (pushFailMsg ++ e.msg) (some 10000)], some e)
      | .ok _ =>
        ([Event.commitCall (commitArgsOf env s dir),
          Event.pushCall (pushArgsOf s dir),
          Event.notice (successMsgStem ++ s.githubRepoUrl) none], none)

/-- Result of one invocation: the ordered trace of issued calls and shown
notices, and the value `SyncBlog` returns (`some e` when a step's error was
caught and returned, `none` on success, where the function returns nothing). -/
structure SyncResult where
  trace : List Event
  returned : Option GitError
deriving DecidableEq

/-- The `SyncBlog` method (lines 35-104): show the start notice, compute the
repository root, run the staging phase, then the commit and push steps, each
guarded by its own catch. -/
def SyncBlog (env : Env) (s : Settings) (basePath : String) : SyncResult :=
  { trace :=
      Event.notice startNoticeMsg none ::
        (stagingPhase env (dirOf s basePath)).1 ++ (syncTail env s (dirOf s basePath)).1
    returned := (syncTail env s (dirOf s basePath)).2 }

/-- One rendered text field of the settings form: its name, description,
placeholder, and the value shown.  Every field of the form is a plain
`addText` input, so the value is rendered in cleartext. -/
structure SettingField where
  name : String
  desc : String
  placeholder : String
  value : String
deriving DecidableEq

/-- The `GithubBlogSyncSettingTab.display` method (lines 148-218): six plain
text inputs, one per settings field, each showing the stored value. -/
def display (s : Settings) : List SettingField :=
  [ { name := "GitHub Username", desc := "", placeholder := "",
      value := s.githubUsername },
    { name := "GitHub Repository Url",
      desc := "In the format github.com/username/repository",
      placeholder := "github.com/username/repository",
      value := s.githubRepoUrl },
    { name := "GitHub Personal Access Token",
      desc := "In the format ghp_XXXXXXXXXXXXXXXXXXXXXXXX",
      placeholder := "ghp_XXXXXXXXXXXXXXXXXXXXXXXX",
      value := s.githubPersonalAccessToken },
    { name := "GitHub Folder Location", desc := "",
      placeholder := "/path/to/folder",
      value := s.gitDirLocation },
    { name := "GitHub Commit Name", desc := "", placeholder := "",
      value := s.nameOfCommit },
    { name := "GitHub Commit Email", desc := "", placeholder := "",
      value := s.emailOfCommit } ]

/-- Boolean test that a per-path operation targets filepath `t`. -/
def opTargets (t : String) (op : GitOp) : Bool :=
  decide (opFile op = t)

/-- Boolean test that an event is a per-path operation targeting filepath `t`. -/
def targets (t : String) (ev : Event) : Bool :=
  match ev with
  | .gitOp op => opTargets t op
  | _ => false

/-
Concrete fixtures used to evaluate the model on explicit inputs.
-/

/-- A concrete settings record. -/
def s0 : Settings :=
  { githubUsername := "mkutay"
    githubRepoUrl := "github.com/mkutay/blog"
    githubPersonalAccessToken := "ghp_abc123"
    gitDirLocation := "blog"
    nameOfCommit := "Kutay"
    emailOfCommit := "kutay@example.com" }

/-- A concrete vault base path. -/
def bp0 : String := "/vault"

/-- The repository root for the concrete fixtures. -/
def dir0 : String := dirOf s0 bp0

/-- The `public` subdirectory of the concrete repository root. -/
def pubDir0 : String := pathJoin dir0 publicSub

/-- The `content` subdirectory of the concrete repository root. -/
def contDir0 : String := pathJoin dir0 contentSub

/-- A row for a modified file present in the working tree. -/
def rowChanged : StatusRow :=
  { filepath := "posts/a.md", headStatus := 1, worktreeStatus := 2, stageStatus := 1 }

/-- A row for a tracked file deleted from the working tree. -/
def rowDeleted : StatusRow :=
  { filepath := "old.md", headStatus := 1, worktreeStatus := 0, stageStatus := 1 }

/-- A row whose name contains the noise token. -/
def rowNoise : StatusRow :=
  { filepath := ".DS_Store", headStatus := 0, worktreeStatus := 2, stageStatus := 0 }

/-- A row for an unmodified tracked file: present and identical in head, index
and working tree (`[1, 1, 1]`), i.e. a file with no changes. -/
def rowUnmod : StatusRow :=
  { filepath := "a.md", headStatus := 1, worktreeStatus := 1, stageStatus := 1 }

/-- An environment in which every call succeeds and both status computations
report no rows. -/
def envOkEmpty : Env :=
  { statusOf := fun _ => Except.ok []
    opResult := fun _ => Except.ok ()
    commitResult := fun _ => Except.ok ()
    pushResult := fun _ => Except.ok ()
    hostname := "machineA"
    now := "Sun Oct 12 2026"
    currentBranch := "main" }

/-- Like `envOkEmpty`, but the `public` status computation reports a modified
and a deleted file. -/
def envRows : Env :=
  { envOkEmpty with
      statusOf := fun d =>
        if d = pubDir0 then Except.ok [rowChanged, rowDeleted] else Except.ok [] }

/-- Like `envRows`, but every per-path operation fails. -/
def envOpFail : Env :=
  { envRows with opResult := fun _ => Except.error { msg := "index locked" } }

/-- An environment in which the `public` status computation itself fails. -/
def envStageFail : Env :=
  { envOkEmpty with statusOf := fun _ => Except.error { msg := "not a repo" } }

/-- An environment in which the commit call fails. -/
def envCommitFail : Env :=
  { envOkEmpty with commitResult := fun _ => Except.error { msg := "bad author" } }

/-- An environment in which the push call fails. -/
def envPushFail : Env :=
  { envOkEmpty with pushResult := fun _ => Except.error { msg := "401 unauthorized" } }

/-- Like `envRows`, but with a noise row reported first for `public`. -/
def envNoise : Env :=
  { envOkEmpty with
      statusOf := fun d =>
        if d = pubDir0 then Except.ok [rowNoise, rowChanged] else Except.ok [] }

/-- An all-success environment whose working tree has a branch other than
`main` checked out. -/
def envDraft : Env :=
  { envOkEmpty with currentBranch := "draft" }

/-- An environment describing a working tree with no changes: the `public`
status computation reports one unmodified row, `content` reports none, and
every call succeeds. -/
def envUnmod : Env :=
  { envOkEmpty with
      statusOf := fun d => if d = pubDir0 then Except.ok [rowUnmod] else Except.ok [] }

/-- Like `envUnmod`, but the commit call fails (the library rejecting a commit
in which nothing staged differs). -/
def envUnmodCommitFail : Env :=
  { envUnmod with commitResult := fun _ => Except.error { msg := "nothing to commit" } }

end GithubBlogSync

namespace GithubBlogSync

/-- Two strings with equal character data are equal. -/
theorem string_data_inj {s t : String} (h : s.data = t.data) : s = t := by
  cases s
  cases t
  exact congrArg String.mk (by simpa using h)

/-- Joining a fixed first segment is injective in the second segment. -/
theorem pathJoin_right_inj {sub a b : String} (h : pathJoin sub a = pathJoin sub b) :
    a = b := by
  by_cases hs : sub = ""
  · simpa [pathJoin, hs] using h
  · by_cases ha : a = "" <;> by_cases hb : b = ""
    · rw [ha, hb]
    · exfalso
      simp only [pathJoin, if_neg hs, if_pos ha, if_neg hb] at h
      have hl := congrArg String.length h
      rw [String.length_append, String.length_append] at hl
      have h1 : ("/" : String).length = 1 := rfl
      omega
    · exfalso
      simp only [pathJoin, if_neg hs, if_neg ha, if_pos hb] at h
      have hl := congrArg String.length h
      rw [String.length_append, String.length_append] at hl
      have h1 : ("/" : String).length = 1 := rfl
      omega
    · simp only [pathJoin, if_neg hs, if_neg ha, if_neg hb] at h
      have hd := congrArg String.data h
      rw [String.data_append, String.data_append, String.data_append,
        String.data_append] at hd
      exact string_data_inj (List.append_cancel_left hd)

/-- A path joined under `public` never equals a path joined under `content`. -/
theorem pathJoin_public_ne_content (a b : String) :
    pathJoin publicSub a ≠ pathJoin contentSub b := by
  intro h
  unfold pathJoin publicSub contentSub at h
  rw [if_neg (by decide : ¬("public" : String) = "")] at h
  rw [if_neg (by decide : ¬("content" : String) = "")] at h
  have e1 : ("public" : String).data = ['p', 'u', 'b', 'l', 'i', 'c'] := rfl
  have e2 : ("content" : String).data = ['c', 'o', 'n', 't', 'e', 'n', 't'] := rfl
  have e3 : ("/" : String).data = ['/'] := rfl
  by_cases ha : a = "" <;> by_cases hb : b = ""
  · rw [if_pos ha, if_pos hb] at h
    have hd := congrArg String.data h
    rw [e1, e2] at hd
    simp at hd
  · rw [if_pos ha, if_neg hb] at h
    have hd := congrArg String.data h
    rw [String.data_append, String.data_append, e1, e2, e3] at hd
    simp at hd
  · rw [if_neg ha, if_pos hb] at h
    have hd := congrArg String.data h
    rw [String.data_append, String.data_append, e1, e2, e3] at hd
    simp at hd
  · rw [if_neg ha, if_neg hb] at h
    have hd := congrArg String.data h
    rw [String.data_append, String.data_append, String.data_append,
      String.data_append, e1, e2, e3] at hd
    simp at hd

end GithubBlogSync

namespace GithubBlogSync

/-- A noise row produces no operation. -/
theorem pathOp_of_noise {row : StatusRow} (dir sub : String)
    (h : includes row.filepath dsStoreName = true) :
    pathOp dir sub row = none := by
  simp [pathOp, h]

/-- A non-noise row produces exactly the dispatch operation. -/
theorem pathOp_of_not_noise {row : StatusRow} (dir sub : String)
    (h : includes row.filepath dsStoreName = false) :
    pathOp dir sub row = some (opFor dir sub row) := by
  unfold pathOp opFor
  rw [h]
  simp only [Bool.false_eq_true, if_false]
  split <;> simp

/-- Inversion of a produced operation. -/
theorem pathOp_eq_some {dir sub : String} {row : StatusRow} {op : GitOp}
    (h : pathOp dir sub row = some op) :
    op = opFor dir sub row ∧ includes row.filepath dsStoreName = false := by
  by_cases hn : includes row.filepath dsStoreName = true
  · rw [pathOp_of_noise dir sub hn] at h
    cases h
  · have hf : includes row.filepath dsStoreName = false := by
      simpa using hn
    rw [pathOp_of_not_noise dir sub hf] at h
    exact ⟨(Option.some.inj h).symm, hf⟩

/-- The dispatch operation's filepath is the subdirectory-prefixed row path. -/
theorem opFile_opFor (dir sub : String) (row : StatusRow) :
    opFile (opFor dir sub row) = pathJoin sub row.filepath := by
  unfold opFor
  split <;> rfl

/-- The dispatch operation's dir is the repository root. -/
theorem opDir_opFor (dir sub : String) (row : StatusRow) :
    opDir (opFor dir sub row) = dir := by
  unfold opFor
  split <;> rfl

/-- Membership in a subdirectory's operation batch. -/
theorem mem_stageOps {dir sub : String} {rows : List StatusRow} {op : GitOp} :
    op ∈ stageOps dir sub rows ↔
      ∃ r, r ∈ rows ∧ includes r.filepath dsStoreName = false ∧ op = opFor dir sub r := by
  unfold stageOps
  rw [List.mem_filterMap]
  constructor
  · rintro ⟨r, hr, hsome⟩
    rcases pathOp_eq_some hsome with ⟨rfl, hn⟩
    exact ⟨r, hr, hn, rfl⟩
  · rintro ⟨r, hr, hn, rfl⟩
    exact ⟨r, hr, pathOp_of_not_noise dir sub hn⟩

/-- A batch has no operation targeting a path no row joins to. -/
theorem stageOps_filter_nil {dir sub t : String} {rows : List StatusRow}
    (h : ∀ r ∈ rows, pathJoin sub r.filepath ≠ t) :
    (stageOps dir sub rows).filter (opTargets t) = [] := by
  rw [List.filter_eq_nil_iff]
  intro op hop
  rcases mem_stageOps.1 hop with ⟨r, hr, hn, rfl⟩
  simp [opTargets, opFile_opFor, h r hr]

/-- In a batch over rows with pairwise-distinct filepaths, a reported non-noise
row's target path receives exactly its own dispatch operation. -/
theorem stageOps_filter_single {dir sub : String} {rows : List StatusRow} {row : StatusRow}
    (hnd : (rows.map StatusRow.filepath).Nodup)
    (hmem : row ∈ rows)
    (hnoise : includes row.filepath dsStoreName = false) :
    (stageOps dir sub rows).filter (opTargets (pathJoin sub row.filepath)) =
      [opFor dir sub row] := by
  induction rows with
  | nil => cases hmem
  | cons r rest ih =>
    rw [List.map_cons, List.nodup_cons] at hnd
    rcases List.mem_cons.1 hmem with heq | hmemr
    · subst heq
      rw [stageOps, List.filterMap_cons, pathOp_of_not_noise dir sub hnoise]
      rw [List.filter_cons]
      have hc : opTargets (pathJoin sub row.filepath) (opFor dir sub row) = true := by
        simp [opTargets, opFile_opFor]
      rw [if_pos hc]
      have hrest : (stageOps dir sub rest).filter
          (opTargets (pathJoin sub row.filepath)) = [] := by
        apply stageOps_filter_nil
        intro r2 hr2 hjoin
        exact hnd.1 (by
          rw [← pathJoin_right_inj hjoin]
          exact List.mem_map_of_mem StatusRow.filepath hr2)
      rw [stageOps] at hrest
      rw [hrest]
    · have hne : r.filepath ≠ row.filepath := by
        intro hfp
        exact hnd.1 (hfp ▸ List.mem_map_of_mem StatusRow.filepath hmemr)
      rw [stageOps, List.filterMap_cons]
      cases hp : pathOp dir sub r with
      | none =>
        exact ih hnd.2 hmemr
      | some op2 =>
        rcases pathOp_eq_some hp with ⟨rfl, hn2⟩
        rw [List.filter_cons]
        have hc : opTargets (pathJoin sub row.filepath) (opFor dir sub r) = false := by
          simp only [opTargets, opFile_opFor, decide_eq_false_iff_not]
          intro hjoin
          exact hne (pathJoin_right_inj hjoin)
        rw [hc]
        simp only [Bool.false_eq_true, if_false]
        exact ih hnd.2 hmemr

/-- A batch in which every operation succeeds settles without error. -/
theorem firstError_eq_none {env : Env} {ops : List GitOp}
    (h : ∀ op ∈ ops, env.opResult op = Except.ok ()) :
    firstError env ops = none := by
  induction ops with
  | nil => rfl
  | cons op rest ih =>
    rw [firstError, h op (List.mem_cons_self op rest)]
    exact ih fun o ho => h o (List.mem_cons_of_mem op ho)

/-- A batch containing a failing operation settles with some error. -/
theorem firstError_eq_some {env : Env} {ops : List GitOp} {op : GitOp} {e : GitError}
    (hmem : op ∈ ops) (he : env.opResult op = Except.error e) :
    ∃ e2, firstError env ops = some e2 := by
  induction ops with
  | nil => cases hmem
  | cons o rest ih =>
    rcases List.mem_cons.1 hmem with rfl | hmem2
    · exact ⟨e, by rw [firstError, he]⟩
    · cases ho : env.opResult o with
      | error e3 => exact ⟨e3, by rw [firstError, ho]⟩
      | ok u =>
        rcases ih hmem2 with ⟨e2, h2⟩
        exact ⟨e2, by rw [firstError, ho]; exact h2⟩

end GithubBlogSync

namespace GithubBlogSync

/-- Unfolding `stageDir` when the status computation fails. -/
theorem stageDir_eq_err {env : Env} {dir sub : String} {e : GitError}
    (h : env.statusOf (pathJoin dir sub) = Except.error e) :
    stageDir env dir sub = ([Event.statusQuery (pathJoin dir sub)], some e) := by
  unfold stageDir
  rw [h]

/-- Unfolding `stageDir` when the status computation reports rows. -/
theorem stageDir_eq_ok {env : Env} {dir sub : String} {rows : List StatusRow}
    (h : env.statusOf (pathJoin dir sub) = Except.ok rows) :
    stageDir env dir sub =
      (Event.statusQuery (pathJoin dir sub) :: (stageOps dir sub rows).map Event.gitOp,
       firstError env (stageOps dir sub rows)) := by
  unfold stageDir
  rw [h]

/-- Unfolding the staging phase when the `public` block fails. -/
theorem stagingPhase_eq_fail {env : Env} {dir : String} {e : GitError}
    (h : (stageDir env dir publicSub).2 = some e) :
    stagingPhase env dir = ((stageDir env dir publicSub).1, some e) := by
  unfold stagingPhase
  rw [h]

/-- Unfolding the staging phase when the `public` block settles cleanly. -/
theorem stagingPhase_eq_ok {env : Env} {dir : String}
    (h : (stageDir env dir publicSub).2 = none) :
    stagingPhase env dir =
      ((stageDir env dir publicSub).1 ++ (stageDir env dir contentSub).1,
       (stageDir env dir contentSub).2) := by
  unfold stagingPhase
  rw [h]

/-- Unfolding the tail when the staging phase failed. -/
theorem syncTail_stageFail {env : Env} {s : Settings} {dir : String} {e : GitError}
    (h : (stagingPhase env dir).2 = some e) :
    syncTail env s dir =
      ([Event.notice (stageFailMsg ++ e.msg) (some 10000)], some e) := by
  unfold syncTail
  rw [h]

/-- Unfolding the tail when staging succeeded and the commit call fails. -/
theorem syncTail_commitErr {env : Env} {s : Settings} {dir : String} {e : GitError}
    (h1 : (stagingPhase env dir).2 = none)
    (h2 : env.commitResult (commitArgsOf env s dir) = Except.error e) :
    syncTail env s dir =
      ([Event.commitCall (commitArgsOf env s dir),
        Event.notice (commitFailMsg ++ e.msg) (some 10000)], some e) := by
  unfold syncTail
  rw [h1, h2]

/-- Unfolding the tail when staging and commit succeeded and the push fails. -/
theorem syncTail_pushErr {env : Env} {s : Settings} {dir : String} {e : GitError}
    (h1 : (stagingPhase env dir).2 = none)
    (h2 : env.commitResult (commitArgsOf env s dir) = Except.ok ())
    (h3 : env.pushResult (pushArgsOf s dir) = Except.error e) :
    syncTail env s dir =
      ([Event.commitCall (commitArgsOf env s dir),
        Event.pushCall (pushArgsOf s dir),
        Event.notice (pushFailMsg ++ e.msg) (some 10000)], some e) := by
  unfold syncTail
  rw [h1, h2, h3]

/-- Unfolding the tail when every step succeeds. -/
theorem syncTail_allOk {env : Env} {s : Settings} {dir : String}
    (h1 : (stagingPhase env dir).2 = none)
    (h2 : env.commitResult (commitArgsOf env s dir) = Except.ok ())
    (h3 : env.pushResult (pushArgsOf s dir) = Except.ok ()) :
    syncTail env s dir =
      ([Event.commitCall (commitArgsOf env s dir),
        Event.pushCall (pushArgsOf s dir),
        Event.notice (successMsgStem ++ s.githubRepoUrl) none], none) := by
  unfold syncTail
  rw [h1, h2, h3]

/-- The trace of one invocation: start notice, staging events, tail events. -/
theorem syncBlog_trace (env : Env) (s : Settings) (bp : String) :
    (SyncBlog env s bp).trace =
      Event.notice startNoticeMsg none ::
        (stagingPhase env (dirOf s bp)).1 ++ (syncTail env s (dirOf s bp)).1 := rfl

/-- The returned value of one invocation is the tail's outcome. -/
theorem syncBlog_returned (env : Env) (s : Settings) (bp : String) :
    (SyncBlog env s bp).returned = (syncTail env s (dirOf s bp)).2 := rfl

/-- Events of one status-and-stage block are status queries or operations. -/
theorem stageDir_kinds {env : Env} {dir sub : String} {ev : Event}
    (h : ev ∈ (stageDir env dir sub).1) :
    isCommitCallEv ev = false ∧ isPushCallEv ev = false := by
  cases hs : env.statusOf (pathJoin dir sub) with
  | error e =>
    rw [stageDir_eq_err hs] at h
    rcases List.mem_singleton.1 h with rfl
    exact ⟨rfl, rfl⟩
  | ok rows =>
    rw [stageDir_eq_ok hs] at h
    rcases List.mem_cons.1 h with rfl | h2
    · exact ⟨rfl, rfl⟩
    · rcases List.mem_map.1 h2 with ⟨op, _, rfl⟩
      exact ⟨rfl, rfl⟩

/-- Staging-phase events are never the commit or push call. -/
theorem stagingPhase_kinds {env : Env} {dir : String} {ev : Event}
    (h : ev ∈ (stagingPhase env dir).1) :
    isCommitCallEv ev = false ∧ isPushCallEv ev = false := by
  cases h2 : (stageDir env dir publicSub).2 with
  | some e =>
    rw [stagingPhase_eq_fail h2] at h
    exact stageDir_kinds h
  | none =>
    rw [stagingPhase_eq_ok h2] at h
    rcases List.mem_append.1 h with h3 | h3 <;> exact stageDir_kinds h3

/-- Tail events are never per-path operations. -/
theorem syncTail_kinds {env : Env} {s : Settings} {dir : String} {ev : Event}
    (h : ev ∈ (syncTail env s dir).1) :
    isGitOpEv ev = false := by
  cases h1 : (stagingPhase env dir).2 with
  | some e =>
    rw [syncTail_stageFail h1] at h
    rcases List.mem_singleton.1 h with rfl
    rfl
  | none =>
    cases h2 : env.commitResult (commitArgsOf env s dir) with
    | error e =>
      rw [syncTail_commitErr h1 h2] at h
      rcases List.mem_cons.1 h with rfl | h3
      · rfl
      · rcases List.mem_singleton.1 h3 with rfl
        rfl
    | ok u =>
      cases u
      cases h3 : env.pushResult (pushArgsOf s dir) with
      | error e =>
        rw [syncTail_pushErr h1 h2 h3] at h
        rcases List.mem_cons.1 h with rfl | h4
        · rfl
        rcases List.mem_cons.1 h4 with rfl | h5
        · rfl
        rcases List.mem_singleton.1 h5 with rfl
        rfl
      | ok v =>
        cases v
        rw [syncTail_allOk h1 h2 h3] at h
        rcases List.mem_cons.1 h with rfl | h4
        · rfl
        rcases List.mem_cons.1 h4 with rfl | h5
        · rfl
        rcases List.mem_singleton.1 h5 with rfl
        rfl

/-- An event that is not a per-path operation targets no filepath. -/
theorem targets_eq_false {ev : Event} (h : isGitOpEv ev = false) (t : String) :
    targets t ev = false := by
  cases ev with
  | gitOp op => simp [isGitOpEv] at h
  | statusQuery d => rfl
  | commitCall a => rfl
  | pushCall a => rfl
  | notice m d => rfl

/-- Every per-path operation event in a trace comes from one of the two
subdirectory batches over the rows the status computation reported. -/
theorem gitOp_mem_stageDir {env : Env} {dir sub : String} {op : GitOp}
    (h : Event.gitOp op ∈ (stageDir env dir sub).1) :
    ∃ rows, env.statusOf (pathJoin dir sub) = Except.ok rows ∧
      op ∈ stageOps dir sub rows := by
  cases hs : env.statusOf (pathJoin dir sub) with
  | error e =>
    rw [stageDir_eq_err hs] at h
    rcases List.mem_singleton.1 h with h2
    cases h2
  | ok rows =>
    rw [stageDir_eq_ok hs] at h
    rcases List.mem_cons.1 h with h2 | h2
    · cases h2
    · rcases List.mem_map.1 h2 with ⟨op2, hmem, heq⟩
      injection heq with heq2
      subst heq2
      exact ⟨rows, rfl, hmem⟩

/-- Every per-path operation event of one invocation arises from the `public`
or the `content` batch over its reported rows. -/
theorem gitOp_mem_trace {env : Env} {s : Settings} {bp : String} {op : GitOp}
    (h : Event.gitOp op ∈ (SyncBlog env s bp).trace) :
    (∃ rows, env.statusOf (pathJoin (dirOf s bp) publicSub) = Except.ok rows ∧
       op ∈ stageOps (dirOf s bp) publicSub rows) ∨
    (∃ rows, env.statusOf (pathJoin (dirOf s bp) contentSub) = Except.ok rows ∧
       op ∈ stageOps (dirOf s bp) contentSub rows) := by
  rw [syncBlog_trace] at h
  rcases List.mem_cons.1 h with heq | h
  · cases heq
  rcases List.mem_append.1 h with h | h
  · cases h2 : (stageDir env (dirOf s bp) publicSub).2 with
    | some e =>
      rw [stagingPhase_eq_fail h2] at h
      exact Or.inl (gitOp_mem_stageDir h)
    | none =>
      rw [stagingPhase_eq_ok h2] at h
      rcases List.mem_append.1 h with h3 | h3
      · exact Or.inl (gitOp_mem_stageDir h3)
      · exact Or.inr (gitOp_mem_stageDir h3)
  · have hk := syncTail_kinds h
    simp [isGitOpEv] at hk

/-- Filtering operation events by target commutes with wrapping in `Event.gitOp`. -/
theorem filter_targets_map_gitOp (t : String) (ops : List GitOp) :
    (ops.map Event.gitOp).filter (targets t) =
      (ops.filter (opTargets t)).map Event.gitOp := by
  induction ops with
  | nil => rfl
  | cons op rest ih =>
    rw [List.map_cons, List.filter_cons, List.filter_cons]
    have he : targets t (Event.gitOp op) = opTargets t op := rfl
    rw [he]
    by_cases hc : opTargets t op = true
    · rw [if_pos hc, if_pos hc, List.map_cons, ih]
    · rw [if_neg hc, if_neg hc, ih]

end GithubBlogSync

namespace GithubBlogSync

/-- C1: for every path reported by the status computation of a watched
subdirectory (`public` or `content`) whose name does not contain the noise
token, one `SyncBlog` invocation issues exactly one operation for that path: a
stage (`git.add`) when the path's worktree status is nonzero (present), and an
index removal (`git.remove`) when its worktree status is zero (absent). -/
theorem c1_per_path_exactly_one_op (env : Env) (s : Settings) (bp : String) :
    (∀ rows row, env.statusOf (pathJoin (dirOf s bp) publicSub) = Except.ok rows →
      (rows.map StatusRow.filepath).Nodup → row ∈ rows →
      includes row.filepath dsStoreName = false →
      (SyncBlog env s bp).trace.filter (targets (pathJoin publicSub row.filepath)) =
        [Event.gitOp (if row.worktreeStatus ≠ 0 then
            GitOp.add (dirOf s bp) (pathJoin publicSub row.filepath)
          else GitOp.remove (dirOf s bp) (pathJoin publicSub row.filepath))]) ∧
    (∀ rows row, (stageDir env (dirOf s bp) publicSub).2 = none →
      env.statusOf (pathJoin (dirOf s bp) contentSub) = Except.ok rows →
      (rows.map StatusRow.filepath).Nodup → row ∈ rows →
      includes row.filepath dsStoreName = false →
      (SyncBlog env s bp).trace.filter (targets (pathJoin contentSub row.filepath)) =
        [Event.gitOp (if row.worktreeStatus ≠ 0 then
            GitOp.add (dirOf s bp) (pathJoin contentSub row.filepath)
          else GitOp.remove (dirOf s bp) (pathJoin contentSub row.filepath))]) := by
  have htail : ∀ t, (syncTail env s (dirOf s bp)).1.filter (targets t) = [] := by
    intro t
    rw [List.filter_eq_nil_iff]
    intro ev hev
    simp [targets_eq_false (syncTail_kinds hev) t]
  constructor
  · intro rows row hpub hnd hmem hnoise
    rw [syncBlog_trace, List.filter_append, htail, List.append_nil, List.filter_cons]
    have hstart : targets (pathJoin publicSub row.filepath)
        (Event.notice startNoticeMsg none) = false := rfl
    rw [hstart]
    simp only [Bool.false_eq_true, if_false]
    have hpubfilter : (stageDir env (dirOf s bp) publicSub).1.filter
        (targets (pathJoin publicSub row.filepath)) =
        [Event.gitOp (opFor (dirOf s bp) publicSub row)] := by
      rw [stageDir_eq_ok hpub, List.filter_cons]
      have hsq : targets (pathJoin publicSub row.filepath)
          (Event.statusQuery (pathJoin (dirOf s bp) publicSub)) = false := rfl
      rw [hsq]
      simp only [Bool.false_eq_true, if_false]
      rw [filter_targets_map_gitOp, stageOps_filter_single hnd hmem hnoise,
        List.map_singleton]
    cases h2 : (stageDir env (dirOf s bp) publicSub).2 with
    | some e =>
      rw [stagingPhase_eq_fail h2, hpubfilter]
      rfl
    | none =>
      rw [stagingPhase_eq_ok h2, List.filter_append, hpubfilter]
      have hcontfilter : (stageDir env (dirOf s bp) contentSub).1.filter
          (targets (pathJoin publicSub row.filepath)) = [] := by
        cases hc : env.statusOf (pathJoin (dirOf s bp) contentSub) with
        | error e =>
          rw [stageDir_eq_err hc]
          rfl
        | ok rows2 =>
          rw [stageDir_eq_ok hc, List.filter_cons]
          have hsq : targets (pathJoin publicSub row.filepath)
              (Event.statusQuery (pathJoin (dirOf s bp) contentSub)) = false := rfl
          rw [hsq]
          simp only [Bool.false_eq_true, if_false]
          rw [filter_targets_map_gitOp, stageOps_filter_nil, List.map_nil]
          intro r2 hr2
          exact fun hj => pathJoin_public_ne_content row.filepath r2.filepath hj.symm
      rw [hcontfilter, List.append_nil]
      rfl
  · intro rows row hpub2 hcont hnd hmem hnoise
    rw [syncBlog_trace, List.filter_append, htail, List.append_nil, List.filter_cons]
    have hstart : targets (pathJoin contentSub row.filepath)
        (Event.notice startNoticeMsg none) = false := rfl
    rw [hstart]
    simp only [Bool.false_eq_true, if_false]
    rw [stagingPhase_eq_ok hpub2, List.filter_append]
    have hpubfilter : (stageDir env (dirOf s bp) publicSub).1.filter
        (targets (pathJoin contentSub row.filepath)) = [] := by
      cases hs : env.statusOf (pathJoin (dirOf s bp) publicSub) with
      | error e =>
        rw [stageDir_eq_err hs] at hpub2
        cases hpub2
      | ok rowsP =>
        rw [stageDir_eq_ok hs, List.filter_cons]
        have hsq : targets (pathJoin contentSub row.filepath)
            (Event.statusQuery (pathJoin (dirOf s bp) publicSub)) = false := rfl
        rw [hsq]
        simp only [Bool.false_eq_true, if_false]
        rw [filter_targets_map_gitOp, stageOps_filter_nil, List.map_nil]
        intro r2 hr2
        exact fun hj => pathJoin_public_ne_content r2.filepath row.filepath hj
    rw [hpubfilter, List.nil_append]
    have hcontfilter : (stageDir env (dirOf s bp) contentSub).1.filter
        (targets (pathJoin contentSub row.filepath)) =
        [Event.gitOp (opFor (dirOf s bp) contentSub row)] := by
      rw [stageDir_eq_ok hcont, List.filter_cons]
      have hsq : targets (pathJoin contentSub row.filepath)
          (Event.statusQuery (pathJoin (dirOf s bp) contentSub)) = false := rfl
      rw [hsq]
      simp only [Bool.false_eq_true, if_false]
      rw [filter_targets_map_gitOp, stageOps_filter_single hnd hmem hnoise,
        List.map_singleton]
    rw [hcontfilter]
    rfl

/-- Witness for C1: in a concrete run whose `public` status reports a modified
and a deleted file, the modified path receives exactly its stage operation. -/
theorem c1_witness :
    (SyncBlog envRows s0 bp0).trace.filter
        (targets (pathJoin publicSub rowChanged.filepath)) =
      [Event.gitOp (if rowChanged.worktreeStatus ≠ 0 then
          GitOp.add (dirOf s0 bp0) (pathJoin publicSub rowChanged.filepath)
        else GitOp.remove (dirOf s0 bp0) (pathJoin publicSub rowChanged.filepath))] :=
  (c1_per_path_exactly_one_op envRows s0 bp0).1 [rowChanged, rowDeleted] rowChanged
    (by decide) (by decide) (by decide) (by decide)

end GithubBlogSync

namespace GithubBlogSync

/-- The staging phase contributes no commit-call event. -/
theorem stagingPhase_filter_commit (env : Env) (dir : String) :
    (stagingPhase env dir).1.filter isCommitCallEv = [] := by
  rw [List.filter_eq_nil_iff]
  intro ev hev
  simp [(stagingPhase_kinds hev).1]

/-- The staging phase contributes no push-call event. -/
theorem stagingPhase_filter_push (env : Env) (dir : String) :
    (stagingPhase env dir).1.filter isPushCallEv = [] := by
  rw [List.filter_eq_nil_iff]
  intro ev hev
  simp [(stagingPhase_kinds hev).2]

/-- C2: when staging succeeds, the commit step issues exactly one commit call,
on the fixed branch `main`, with the configured author name and email used
verbatim as the author identity, and with message exactly the local hostname
followed by a single space followed by the formatted current date-time. -/
theorem c2_commit_branch_author_message (env : Env) (s : Settings) (bp : String)
    (hstg : (stagingPhase env (dirOf s bp)).2 = none) :
    (SyncBlog env s bp).trace.filter isCommitCallEv =
      [Event.commitCall (commitArgsOf env s (dirOf s bp))] ∧
    (commitArgsOf env s (dirOf s bp)).ref = "main" ∧
    (commitArgsOf env s (dirOf s bp)).message = env.hostname ++ " " ++ env.now ∧
    (commitArgsOf env s (dirOf s bp)).authorName = s.nameOfCommit ∧
    (commitArgsOf env s (dirOf s bp)).authorEmail = s.emailOfCommit := by
  refine ⟨?_, rfl, rfl, rfl, rfl⟩
  rw [syncBlog_trace, List.filter_append, List.filter_cons]
  have h0 : isCommitCallEv (Event.notice startNoticeMsg none) = false := rfl
  rw [h0]
  simp only [Bool.false_eq_true, if_false]
  rw [stagingPhase_filter_commit, List.nil_append]
  cases h2 : env.commitResult (commitArgsOf env s (dirOf s bp)) with
  | error e =>
    rw [syncTail_commitErr hstg h2]
    simp [List.filter, isCommitCallEv]
  | ok u =>
    cases u
    cases h3 : env.pushResult (pushArgsOf s (dirOf s bp)) with
    | error e =>
      rw [syncTail_pushErr hstg h2 h3]
      simp [List.filter, isCommitCallEv]
    | ok v =>
      cases v
      rw [syncTail_allOk hstg h2 h3]
      simp [List.filter, isCommitCallEv]

/-- Witness for C2: in a concrete all-success run the single commit call
carries branch `main`, the configured identity, and message
`hostname ++ " " ++ now`. -/
theorem c2_witness :
    (SyncBlog envOkEmpty s0 bp0).trace.filter isCommitCallEv =
      [Event.commitCall (commitArgsOf envOkEmpty s0 (dirOf s0 bp0))] ∧
    (commitArgsOf envOkEmpty s0 (dirOf s0 bp0)).ref = "main" ∧
    (commitArgsOf envOkEmpty s0 (dirOf s0 bp0)).message =
      envOkEmpty.hostname ++ " " ++ envOkEmpty.now ∧
    (commitArgsOf envOkEmpty s0 (dirOf s0 bp0)).authorName = s0.nameOfCommit ∧
    (commitArgsOf envOkEmpty s0 (dirOf s0 bp0)).authorEmail = s0.emailOfCommit :=
  c2_commit_branch_author_message envOkEmpty s0 bp0 (by decide)

/-- C3 counterexample: the code passes no `ref` to the push call, so in a
concrete all-success run on a working tree whose checked-out branch is
`draft`, the single push call carries no branch argument and the branch the
library pushes is `draft`, not the fixed branch `main`. -/
theorem c3_counterexample :
    (SyncBlog envDraft s0 bp0).trace.filter isPushCallEv =
      [Event.pushCall (pushArgsOf s0 (dirOf s0 bp0))] ∧
    (pushArgsOf s0 (dirOf s0 bp0)).ref = none ∧
    pushedRef envDraft (pushArgsOf s0 (dirOf s0 bp0)) = "draft" ∧
    pushedRef envDraft (pushArgsOf s0 (dirOf s0 bp0)) ≠ "main" := by
  refine ⟨by decide, rfl, rfl, by decide⟩

/-- C3 (amended): when staging and commit succeed, the push step issues exactly
one push call, to the URL formed by prefixing the configured repository path
with `https://`, with no branch argument (so the library pushes the currently
checked-out branch, its default), authenticating with the access token as the
basic-auth username and no password field (presented as username = token,
password = empty). -/
theorem c3_amended_push_url_auth (env : Env) (s : Settings) (bp : String)
    (hstg : (stagingPhase env (dirOf s bp)).2 = none)
    (hcommit : env.commitResult (commitArgsOf env s (dirOf s bp)) = Except.ok ()) :
    (SyncBlog env s bp).trace.filter isPushCallEv =
      [Event.pushCall (pushArgsOf s (dirOf s bp))] ∧
    (pushArgsOf s (dirOf s bp)).url = "https://" ++ s.githubRepoUrl ∧
    (pushArgsOf s (dirOf s bp)).ref = none ∧
    pushedRef env (pushArgsOf s (dirOf s bp)) = env.currentBranch ∧
    (pushArgsOf s (dirOf s bp)).auth.username = s.githubPersonalAccessToken ∧
    (pushArgsOf s (dirOf s bp)).auth.password = none ∧
    basicAuthUserinfo (pushArgsOf s (dirOf s bp)).auth =
      s.githubPersonalAccessToken ++ ":" := by
  refine ⟨?_, rfl, rfl, rfl, rfl, rfl,
    by simp [basicAuthUserinfo, pushArgsOf, String.append_empty]⟩
  rw [syncBlog_trace, List.filter_append, List.filter_cons]
  have h0 : isPushCallEv (Event.notice startNoticeMsg none) = false := rfl
  rw [h0]
  simp only [Bool.false_eq_true, if_false]
  rw [stagingPhase_filter_push, List.nil_append]
  cases h3 : env.pushResult (pushArgsOf s (dirOf s bp)) with
  | error e =>
    rw [syncTail_pushErr hstg hcommit h3]
    simp [List.filter, isPushCallEv]
  | ok v =>
    cases v
    rw [syncTail_allOk hstg hcommit h3]
    simp [List.filter, isPushCallEv]

/-- Witness for the amended C3: the concrete all-success run issues one push
call with the expected URL, absent branch, and token-as-username credentials. -/
theorem c3_amended_witness :
    (SyncBlog envOkEmpty s0 bp0).trace.filter isPushCallEv =
      [Event.pushCall (pushArgsOf s0 (dirOf s0 bp0))] ∧
    (pushArgsOf s0 (dirOf s0 bp0)).url = "https://" ++ s0.githubRepoUrl ∧
    (pushArgsOf s0 (dirOf s0 bp0)).ref = none ∧
    pushedRef envOkEmpty (pushArgsOf s0 (dirOf s0 bp0)) = envOkEmpty.currentBranch ∧
    (pushArgsOf s0 (dirOf s0 bp0)).auth.username = s0.githubPersonalAccessToken ∧
    (pushArgsOf s0 (dirOf s0 bp0)).auth.password = none ∧
    basicAuthUserinfo (pushArgsOf s0 (dirOf s0 bp0)).auth =
      s0.githubPersonalAccessToken ++ ":" :=
  c3_amended_push_url_auth envOkEmpty s0 bp0 (by decide) (by decide)

end GithubBlogSync

namespace GithubBlogSync

/-- C4: each step's failure is caught independently at its own boundary: a
notification with that step's fixed prefix message and the error's description
is shown for 10000 ms, the caught error value is returned to the caller, no
later step executes, nothing is retried (the commit and push calls occur at
most once), and nothing done by earlier steps is undone — the trace on a
failure is exactly the prior steps' events followed by the failure notice, so
on push failure the already-issued commit call remains. -/
theorem c4_step_failure_policy (env : Env) (s : Settings) (bp : String) :
    (∀ e, (stagingPhase env (dirOf s bp)).2 = some e →
      (SyncBlog env s bp).returned = some e ∧
      (SyncBlog env s bp).trace =
        Event.notice startNoticeMsg none :: (stagingPhase env (dirOf s bp)).1 ++
          [Event.notice (stageFailMsg ++ e.msg) (some 10000)] ∧
      (SyncBlog env s bp).trace.filter isCommitCallEv = [] ∧
      (SyncBlog env s bp).trace.filter isPushCallEv = []) ∧
    (∀ e, (stagingPhase env (dirOf s bp)).2 = none →
      env.commitResult (commitArgsOf env s (dirOf s bp)) = Except.error e →
      (SyncBlog env s bp).returned = some e ∧
      (SyncBlog env s bp).trace =
        Event.notice startNoticeMsg none :: (stagingPhase env (dirOf s bp)).1 ++
          [Event.commitCall (commitArgsOf env s (dirOf s bp)),
           Event.notice (commitFailMsg ++ e.msg) (some 10000)] ∧
      (SyncBlog env s bp).trace.filter isCommitCallEv =
        [Event.commitCall (commitArgsOf env s (dirOf s bp))] ∧
      (SyncBlog env s bp).trace.filter isPushCallEv = []) ∧
    (∀ e, (stagingPhase env (dirOf s bp)).2 = none →
      env.commitResult (commitArgsOf env s (dirOf s bp)) = Except.ok () →
      env.pushResult (pushArgsOf s (dirOf s bp)) = Except.error e →
      (SyncBlog env s bp).returned = some e ∧
      (SyncBlog env s bp).trace =
        Event.notice startNoticeMsg none :: (stagingPhase env (dirOf s bp)).1 ++
          [Event.commitCall (commitArgsOf env s (dirOf s bp)),
           Event.pushCall (pushArgsOf s (dirOf s bp)),
           Event.notice (pushFailMsg ++ e.msg) (some 10000)] ∧
      (SyncBlog env s bp).trace.filter isCommitCallEv =
        [Event.commitCall (commitArgsOf env s (dirOf s bp))] ∧
      (SyncBlog env s bp).trace.filter isPushCallEv =
        [Event.pushCall (pushArgsOf s (dirOf s bp))]) := by
  refine ⟨?_, ?_, ?_⟩
  · intro e hstg
    have ht := syncTail_stageFail (s := s) hstg
    refine ⟨?_, ?_, ?_, ?_⟩
    · rw [syncBlog_returned, ht]
    · rw [syncBlog_trace, ht]
    · rw [syncBlog_trace, ht, List.filter_append, List.filter_cons]
      have h0 : isCommitCallEv (Event.notice startNoticeMsg none) = false := rfl
      rw [h0]
      simp only [Bool.false_eq_true, if_false]
      rw [stagingPhase_filter_commit]
      rfl
    · rw [syncBlog_trace, ht, List.filter_append, List.filter_cons]
      have h0 : isPushCallEv (Event.notice startNoticeMsg none) = false := rfl
      rw [h0]
      simp only [Bool.false_eq_true, if_false]
      rw [stagingPhase_filter_push]
      rfl
  · intro e hstg hcommit
    have ht := syncTail_commitErr hstg hcommit
    refine ⟨?_, ?_, ?_, ?_⟩
    · rw [syncBlog_returned, ht]
    · rw [syncBlog_trace, ht]
    · rw [syncBlog_trace, ht, List.filter_append, List.filter_cons]
      have h0 : isCommitCallEv (Event.notice startNoticeMsg none) = false := rfl
      rw [h0]
      simp only [Bool.false_eq_true, if_false]
      rw [stagingPhase_filter_commit]
      simp [List.filter, isCommitCallEv]
    · rw [syncBlog_trace, ht, List.filter_append, List.filter_cons]
      have h0 : isPushCallEv (Event.notice startNoticeMsg none) = false := rfl
      rw [h0]
      simp only [Bool.false_eq_true, if_false]
      rw [stagingPhase_filter_push]
      simp [List.filter, isPushCallEv]
  · intro e hstg hcommit hpush
    have ht := syncTail_pushErr hstg hcommit hpush
    refine ⟨?_, ?_, ?_, ?_⟩
    · rw [syncBlog_returned, ht]
    · rw [syncBlog_trace, ht]
    · rw [syncBlog_trace, ht, List.filter_append, List.filter_cons]
      have h0 : isCommitCallEv (Event.notice startNoticeMsg none) = false := rfl
      rw [h0]
      simp only [Bool.false_eq_true, if_false]
      rw [stagingPhase_filter_commit]
      simp [List.filter, isCommitCallEv, isPushCallEv]
    · rw [syncBlog_trace, ht, List.filter_append, List.filter_cons]
      have h0 : isPushCallEv (Event.notice startNoticeMsg none) = false := rfl
      rw [h0]
      simp only [Bool.false_eq_true, if_false]
      rw [stagingPhase_filter_push]
      simp [List.filter, isCommitCallEv, isPushCallEv]

/-- Witness for C4: three concrete runs, one per failing step, showing the
returned error, the absent later-step calls, and the retained commit call on
push failure. -/
theorem c4_witness :
    (SyncBlog envStageFail s0 bp0).returned = some { msg := "not a repo" } ∧
    (SyncBlog envStageFail s0 bp0).trace.filter isCommitCallEv = [] ∧
    (SyncBlog envCommitFail s0 bp0).returned = some { msg := "bad author" } ∧
    (SyncBlog envCommitFail s0 bp0).trace.filter isPushCallEv = [] ∧
    (SyncBlog envPushFail s0 bp0).returned = some { msg := "401 unauthorized" } ∧
    (SyncBlog envPushFail s0 bp0).trace.filter isCommitCallEv =
      [Event.commitCall (commitArgsOf envPushFail s0 (dirOf s0 bp0))] := by
  have h1 := (c4_step_failure_policy envStageFail s0 bp0).1
    { msg := "not a repo" } (by decide)
  have h2 := (c4_step_failure_policy envCommitFail s0 bp0).2.1
    { msg := "bad author" } (by decide) (by decide)
  have h3 := (c4_step_failure_policy envPushFail s0 bp0).2.2
    { msg := "401 unauthorized" } (by decide) (by decide) (by decide)
  exact ⟨h1.1, h1.2.2.1, h2.1, h2.2.2.2, h3.1, h3.2.2.1⟩

end GithubBlogSync

namespace GithubBlogSync

/-- Events of the `public` block belong to the staging phase. -/
theorem mem_stagingPhase_of_mem_pub {env : Env} {dir : String} {ev : Event}
    (h : ev ∈ (stageDir env dir publicSub).1) :
    ev ∈ (stagingPhase env dir).1 := by
  cases h2 : (stageDir env dir publicSub).2 with
  | some e =>
    rw [stagingPhase_eq_fail h2]
    exact h
  | none =>
    rw [stagingPhase_eq_ok h2]
    exact List.mem_append_left _ h

/-- When the `public` block settles cleanly, events of the `content` block
belong to the staging phase. -/
theorem mem_stagingPhase_of_mem_cont {env : Env} {dir : String} {ev : Event}
    (h2 : (stageDir env dir publicSub).2 = none)
    (h : ev ∈ (stageDir env dir contentSub).1) :
    ev ∈ (stagingPhase env dir).1 := by
  rw [stagingPhase_eq_ok h2]
  exact List.mem_append_right _ h

/-- Staging-phase events belong to the invocation's trace. -/
theorem mem_trace_of_mem_staging {env : Env} {s : Settings} {bp : String} {ev : Event}
    (h : ev ∈ (stagingPhase env (dirOf s bp)).1) :
    ev ∈ (SyncBlog env s bp).trace := by
  rw [syncBlog_trace]
  exact List.mem_append_left _ (List.mem_cons_of_mem _ h)

/-- Consequences of a failed staging phase: the error is returned, the staging
notice is shown for 10000 ms, and no commit or push call is ever issued. -/
theorem stagingFail_conclusions {env : Env} {s : Settings} {bp : String} {e2 : GitError}
    (h : (stagingPhase env (dirOf s bp)).2 = some e2) :
    (SyncBlog env s bp).returned = some e2 ∧
    Event.notice (stageFailMsg ++ e2.msg) (some 10000) ∈ (SyncBlog env s bp).trace ∧
    (SyncBlog env s bp).trace.filter isCommitCallEv = [] ∧
    (SyncBlog env s bp).trace.filter isPushCallEv = [] := by
  have ht := syncTail_stageFail (s := s) h
  refine ⟨?_, ?_, ?_, ?_⟩
  · rw [syncBlog_returned, ht]
  · rw [syncBlog_trace, ht]
    exact List.mem_append_right _ (List.mem_singleton.2 rfl)
  · rw [syncBlog_trace, ht, List.filter_append, List.filter_cons]
    have h0 : isCommitCallEv (Event.notice startNoticeMsg none) = false := rfl
    rw [h0]
    simp only [Bool.false_eq_true, if_false]
    rw [stagingPhase_filter_commit]
    rfl
  · rw [syncBlog_trace, ht, List.filter_append, List.filter_cons]
    have h0 : isPushCallEv (Event.notice startNoticeMsg none) = false := rfl
    rw [h0]
    simp only [Bool.false_eq_true, if_false]
    rw [stagingPhase_filter_push]
    rfl

/-- C5: if any single per-path stage or index-removal operation within a
watched subdirectory fails, the whole staging step fails with some error, the
staging-failure notification is shown, the error is returned, and the commit
and push steps are not executed in that invocation. -/
theorem c5_per_path_failure_aborts (env : Env) (s : Settings) (bp : String) :
    (∀ rows op e, env.statusOf (pathJoin (dirOf s bp) publicSub) = Except.ok rows →
      op ∈ stageOps (dirOf s bp) publicSub rows →
      env.opResult op = Except.error e →
      ∃ e2, (stagingPhase env (dirOf s bp)).2 = some e2 ∧
        (SyncBlog env s bp).returned = some e2 ∧
        Event.notice (stageFailMsg ++ e2.msg) (some 10000) ∈ (SyncBlog env s bp).trace ∧
        (SyncBlog env s bp).trace.filter isCommitCallEv = [] ∧
        (SyncBlog env s bp).trace.filter isPushCallEv = []) ∧
    (∀ rows op e, (stageDir env (dirOf s bp) publicSub).2 = none →
      env.statusOf (pathJoin (dirOf s bp) contentSub) = Except.ok rows →
      op ∈ stageOps (dirOf s bp) contentSub rows →
      env.opResult op = Except.error e →
      ∃ e2, (stagingPhase env (dirOf s bp)).2 = some e2 ∧
        (SyncBlog env s bp).returned = some e2 ∧
        Event.notice (stageFailMsg ++ e2.msg) (some 10000) ∈ (SyncBlog env s bp).trace ∧
        (SyncBlog env s bp).trace.filter isCommitCallEv = [] ∧
        (SyncBlog env s bp).trace.filter isPushCallEv = []) := by
  constructor
  · intro rows op e hpub hmem he
    rcases firstError_eq_some hmem he with ⟨e2, hfe⟩
    have hp2 : (stageDir env (dirOf s bp) publicSub).2 = some e2 := by
      rw [stageDir_eq_ok hpub]
      exact hfe
    have hstg : (stagingPhase env (dirOf s bp)).2 = some e2 := by
      rw [stagingPhase_eq_fail hp2]
    rcases stagingFail_conclusions hstg with ⟨h1, h2, h3, h4⟩
    exact ⟨e2, hstg, h1, h2, h3, h4⟩
  · intro rows op e hpub2 hcont hmem he
    rcases firstError_eq_some hmem he with ⟨e2, hfe⟩
    have hc2 : (stageDir env (dirOf s bp) contentSub).2 = some e2 := by
      rw [stageDir_eq_ok hcont]
      exact hfe
    have hstg : (stagingPhase env (dirOf s bp)).2 = some e2 := by
      rw [stagingPhase_eq_ok hpub2]
      exact hc2
    rcases stagingFail_conclusions hstg with ⟨h1, h2, h3, h4⟩
    exact ⟨e2, hstg, h1, h2, h3, h4⟩

/-- Witness for C5: a concrete run in which every per-path operation fails
issues no commit call and no push call. -/
theorem c5_witness :
    (SyncBlog envOpFail s0 bp0).trace.filter isCommitCallEv = [] ∧
    (SyncBlog envOpFail s0 bp0).trace.filter isPushCallEv = [] := by
  have h := (c5_per_path_failure_aborts envOpFail s0 bp0).1
    [rowChanged, rowDeleted]
    (GitOp.add (dirOf s0 bp0) (pathJoin publicSub rowChanged.filepath))
    { msg := "index locked" } (by decide) (by decide) (by decide)
  rcases h with ⟨e2, _, _, _, h4, h5⟩
  exact ⟨h4, h5⟩

end GithubBlogSync

namespace GithubBlogSync

/-- C6 counterexample: a concrete run on a working tree with no changes — the
`public` status computation reports a single unmodified row `[1, 1, 1]` and
`content` reports none — still issues a stage operation for the unmodified
path, so the staging step does not issue zero operations. -/
theorem c6_counterexample :
    (∀ r ∈ [rowUnmod], r.headStatus = 1 ∧ r.stageStatus = 1 ∧ r.worktreeStatus = 1) ∧
    envUnmod.statusOf (pathJoin (dirOf s0 bp0) publicSub) = Except.ok [rowUnmod] ∧
    envUnmod.statusOf (pathJoin (dirOf s0 bp0) contentSub) = Except.ok [] ∧
    Event.gitOp (GitOp.add (dirOf s0 bp0) (pathJoin publicSub rowUnmod.filepath)) ∈
      (SyncBlog envUnmod s0 bp0).trace ∧
    (SyncBlog envUnmod s0 bp0).trace.filter isGitOpEv ≠ [] := by
  decide

/-- C6 (amended): for a working tree with no changes under either watched
subdirectory (every reported row unmodified, `[1, 1, 1]`), the staging step
issues only (no-op re-)stage operations — one add per reported non-noise path
— and no index removals; when the library then rejects the commit call (as it
would with nothing staged that differs), the failure is reported as the
commit-step error and returned. -/
theorem c6_amended_unmodified_restage (env : Env) (s : Settings) (bp : String)
    (pubRows contRows : List StatusRow) (e : GitError)
    (hpub : env.statusOf (pathJoin (dirOf s bp) publicSub) = Except.ok pubRows)
    (hcont : env.statusOf (pathJoin (dirOf s bp) contentSub) = Except.ok contRows)
    (hunmodP : ∀ r ∈ pubRows, r.headStatus = 1 ∧ r.stageStatus = 1 ∧ r.worktreeStatus = 1)
    (hunmodC : ∀ r ∈ contRows, r.headStatus = 1 ∧ r.stageStatus = 1 ∧ r.worktreeStatus = 1)
    (hops : ∀ op, env.opResult op = Except.ok ())
    (hcommit : env.commitResult (commitArgsOf env s (dirOf s bp)) = Except.error e) :
    (∀ op, Event.gitOp op ∈ (SyncBlog env s bp).trace →
      ∃ f, op = GitOp.add (dirOf s bp) f) ∧
    (∀ r ∈ pubRows, includes r.filepath dsStoreName = false →
      Event.gitOp (GitOp.add (dirOf s bp) (pathJoin publicSub r.filepath)) ∈
        (SyncBlog env s bp).trace) ∧
    (∀ r ∈ contRows, includes r.filepath dsStoreName = false →
      Event.gitOp (GitOp.add (dirOf s bp) (pathJoin contentSub r.filepath)) ∈
        (SyncBlog env s bp).trace) ∧
    (SyncBlog env s bp).returned = some e ∧
    Event.notice (commitFailMsg ++ e.msg) (some 10000) ∈ (SyncBlog env s bp).trace := by
  have hp2 : (stageDir env (dirOf s bp) publicSub).2 = none := by
    rw [stageDir_eq_ok hpub]
    exact firstError_eq_none fun op _ => hops op
  have hc2 : (stageDir env (dirOf s bp) contentSub).2 = none := by
    rw [stageDir_eq_ok hcont]
    exact firstError_eq_none fun op _ => hops op
  have hstg : (stagingPhase env (dirOf s bp)).2 = none := by
    rw [stagingPhase_eq_ok hp2]
    exact hc2
  have ht := syncTail_commitErr hstg hcommit
  refine ⟨?_, ?_, ?_, ?_, ?_⟩
  · intro op hmem
    rcases gitOp_mem_trace hmem with ⟨rows2, hs2, hop⟩ | ⟨rows2, hs2, hop⟩
    · rw [hpub] at hs2
      injection hs2 with hs3
      subst hs3
      rcases mem_stageOps.1 hop with ⟨r, hr, hn, rfl⟩
      refine ⟨pathJoin publicSub r.filepath, ?_⟩
      unfold opFor
      rw [if_pos]
      rw [(hunmodP r hr).2.2]
      decide
    · rw [hcont] at hs2
      injection hs2 with hs3
      subst hs3
      rcases mem_stageOps.1 hop with ⟨r, hr, hn, rfl⟩
      refine ⟨pathJoin contentSub r.filepath, ?_⟩
      unfold opFor
      rw [if_pos]
      rw [(hunmodC r hr).2.2]
      decide
  · intro r hr hn
    have hop : opFor (dirOf s bp) publicSub r ∈ stageOps (dirOf s bp) publicSub pubRows :=
      mem_stageOps.2 ⟨r, hr, hn, rfl⟩
    have hopf : opFor (dirOf s bp) publicSub r =
        GitOp.add (dirOf s bp) (pathJoin publicSub r.filepath) := by
      unfold opFor
      rw [if_pos]
      rw [(hunmodP r hr).2.2]
      decide
    apply mem_trace_of_mem_staging
    apply mem_stagingPhase_of_mem_pub
    rw [stageDir_eq_ok hpub]
    apply List.mem_cons_of_mem
    rw [← hopf]
    exact List.mem_map_of_mem Event.gitOp hop
  · intro r hr hn
    have hop : opFor (dirOf s bp) contentSub r ∈ stageOps (dirOf s bp) contentSub contRows :=
      mem_stageOps.2 ⟨r, hr, hn, rfl⟩
    have hopf : opFor (dirOf s bp) contentSub r =
        GitOp.add (dirOf s bp) (pathJoin contentSub r.filepath) := by
      unfold opFor
      rw [if_pos]
      rw [(hunmodC r hr).2.2]
      decide
    apply mem_trace_of_mem_staging
    apply mem_stagingPhase_of_mem_cont hp2
    rw [stageDir_eq_ok hcont]
    apply List.mem_cons_of_mem
    rw [← hopf]
    exact List.mem_map_of_mem Event.gitOp hop
  · rw [syncBlog_returned, ht]
  · rw [syncBlog_trace, ht]
    refine List.mem_append_right _ ?_
    exact List.mem_cons_of_mem _ (List.mem_singleton.2 rfl)

/-- Witness for the amended C6: in the concrete no-changes run with a
rejecting commit, the unmodified path is re-staged, the commit error is
returned, and the commit-failure notice is shown. -/
theorem c6_amended_witness :
    Event.gitOp (GitOp.add (dirOf s0 bp0) (pathJoin publicSub rowUnmod.filepath)) ∈
      (SyncBlog envUnmodCommitFail s0 bp0).trace ∧
    (SyncBlog envUnmodCommitFail s0 bp0).returned = some { msg := "nothing to commit" } ∧
    Event.notice (commitFailMsg ++ GitError.msg { msg := "nothing to commit" })
      (some 10000) ∈ (SyncBlog envUnmodCommitFail s0 bp0).trace := by
  have h := c6_amended_unmodified_restage envUnmodCommitFail s0 bp0 [rowUnmod] []
    { msg := "nothing to commit" } (by decide) (by decide) (by decide) (by decide)
    (fun op => rfl) (by decide)
  exact ⟨h.2.1 rowUnmod (by decide) (by decide), h.2.2.2.1, h.2.2.2.2⟩

end GithubBlogSync

namespace GithubBlogSync

/-- The status query of a block is among its events. -/
theorem statusQuery_mem_stageDir (env : Env) (dir sub : String) :
    Event.statusQuery (pathJoin dir sub) ∈ (stageDir env dir sub).1 := by
  cases hs : env.statusOf (pathJoin dir sub) with
  | error e =>
    rw [stageDir_eq_err hs]
    exact List.mem_singleton.2 rfl
  | ok rows =>
    rw [stageDir_eq_ok hs]
    exact List.mem_cons_self _ _

/-- C7: a reported path whose name contains the noise token `.DS_Store` is
never the target of any stage or index-removal operation issued by the
invocation, regardless of its head, index, or worktree status. -/
theorem c7_noise_paths_never_touched (env : Env) (s : Settings) (bp : String) :
    (∀ rows row, env.statusOf (pathJoin (dirOf s bp) publicSub) = Except.ok rows →
      row ∈ rows → includes row.filepath dsStoreName = true →
      ∀ op, Event.gitOp op ∈ (SyncBlog env s bp).trace →
        opFile op ≠ pathJoin publicSub row.filepath) ∧
    (∀ rows row, env.statusOf (pathJoin (dirOf s bp) contentSub) = Except.ok rows →
      row ∈ rows → includes row.filepath dsStoreName = true →
      ∀ op, Event.gitOp op ∈ (SyncBlog env s bp).trace →
        opFile op ≠ pathJoin contentSub row.filepath) := by
  constructor
  · intro rows row hpub hrow hnoise op hmem hfile
    rcases gitOp_mem_trace hmem with ⟨rows2, hs2, hop⟩ | ⟨rows2, hs2, hop⟩
    · rw [hpub] at hs2
      injection hs2 with hs3
      subst hs3
      rcases mem_stageOps.1 hop with ⟨r, hr, hn, rfl⟩
      rw [opFile_opFor] at hfile
      have hrf := pathJoin_right_inj hfile
      rw [hrf] at hn
      rw [hn] at hnoise
      cases hnoise
    · rcases mem_stageOps.1 hop with ⟨r, hr, hn, rfl⟩
      rw [opFile_opFor] at hfile
      exact pathJoin_public_ne_content row.filepath r.filepath hfile.symm
  · intro rows row hcont hrow hnoise op hmem hfile
    rcases gitOp_mem_trace hmem with ⟨rows2, hs2, hop⟩ | ⟨rows2, hs2, hop⟩
    · rcases mem_stageOps.1 hop with ⟨r, hr, hn, rfl⟩
      rw [opFile_opFor] at hfile
      exact pathJoin_public_ne_content r.filepath row.filepath hfile
    · rw [hcont] at hs2
      injection hs2 with hs3
      subst hs3
      rcases mem_stageOps.1 hop with ⟨r, hr, hn, rfl⟩
      rw [opFile_opFor] at hfile
      have hrf := pathJoin_right_inj hfile
      rw [hrf] at hn
      rw [hn] at hnoise
      cases hnoise

/-- Witness for C7: in a concrete run whose `public` status reports a
`.DS_Store` row and a changed row, the operation issued for the changed row
does not target the noise path. -/
theorem c7_witness :
    opFile (opFor (dirOf s0 bp0) publicSub rowChanged) ≠
      pathJoin publicSub rowNoise.filepath :=
  (c7_noise_paths_never_touched envNoise s0 bp0).1 [rowNoise, rowChanged] rowNoise
    (by decide) (by decide) (by decide)
    (opFor (dirOf s0 bp0) publicSub rowChanged) (by decide)

/-- C8 counterexample: with a concrete settings record, the rendered settings
form does contain a plain text field whose shown value is the stored access
token — the token-field of the form renders the token in cleartext. -/
theorem c8_counterexample :
    (¬ ∀ f ∈ display s0, f.value ≠ s0.githubPersonalAccessToken) ∧
    ∃ f ∈ display s0, f.name = "GitHub Personal Access Token" ∧
      f.value = s0.githubPersonalAccessToken := by
  decide

/-- C8 (amended): for every settings record, the settings form renders the
stored access token as the value of the plain (unmasked) text input named
`GitHub Personal Access Token` — the token is displayed in cleartext. -/
theorem c8_amended_token_in_cleartext (s : Settings) :
    ∃ f ∈ display s, f.name = "GitHub Personal Access Token" ∧
      f.value = s.githubPersonalAccessToken := by
  unfold display
  exact ⟨_, List.mem_cons_of_mem _ (List.mem_cons_of_mem _ (List.mem_cons_self _ _)),
    rfl, rfl⟩

/-- C9: each watched subdirectory's status computation is invoked with the
subdirectory itself (root joined with `public` or `content`) as the repository
directory, while every per-path operation issued for its rows runs with the
configured root as the repository directory and the reported path re-prefixed
by the subdirectory name. -/
theorem c9_status_dir_vs_op_args (env : Env) (s : Settings) (bp : String) :
    Event.statusQuery (pathJoin (dirOf s bp) publicSub) ∈ (SyncBlog env s bp).trace ∧
    (∀ rows, env.statusOf (pathJoin (dirOf s bp) publicSub) = Except.ok rows →
      ∀ op, op ∈ stageOps (dirOf s bp) publicSub rows →
        opDir op = dirOf s bp ∧
        (∃ r, r ∈ rows ∧ opFile op = pathJoin publicSub r.filepath) ∧
        Event.gitOp op ∈ (SyncBlog env s bp).trace) ∧
    (∀ rows, (stageDir env (dirOf s bp) publicSub).2 = none →
      env.statusOf (pathJoin (dirOf s bp) contentSub) = Except.ok rows →
      Event.statusQuery (pathJoin (dirOf s bp) contentSub) ∈ (SyncBlog env s bp).trace ∧
      ∀ op, op ∈ stageOps (dirOf s bp) contentSub rows →
        opDir op = dirOf s bp ∧
        (∃ r, r ∈ rows ∧ opFile op = pathJoin contentSub r.filepath) ∧
        Event.gitOp op ∈ (SyncBlog env s bp).trace) := by
  refine ⟨?_, ?_, ?_⟩
  · exact mem_trace_of_mem_staging
      (mem_stagingPhase_of_mem_pub (statusQuery_mem_stageDir env (dirOf s bp) publicSub))
  · intro rows hpub op hop
    rcases mem_stageOps.1 hop with ⟨r, hr, hn, rfl⟩
    refine ⟨opDir_opFor _ _ _, ⟨r, hr, opFile_opFor _ _ _⟩, ?_⟩
    apply mem_trace_of_mem_staging
    apply mem_stagingPhase_of_mem_pub
    rw [stageDir_eq_ok hpub]
    exact List.mem_cons_of_mem _
      (List.mem_map_of_mem Event.gitOp (mem_stageOps.2 ⟨r, hr, hn, rfl⟩))
  · intro rows hp2 hcont
    constructor
    · exact mem_trace_of_mem_staging
        (mem_stagingPhase_of_mem_cont hp2 (statusQuery_mem_stageDir env (dirOf s bp) contentSub))
    · intro op hop
      rcases mem_stageOps.1 hop with ⟨r, hr, hn, rfl⟩
      refine ⟨opDir_opFor _ _ _, ⟨r, hr, opFile_opFor _ _ _⟩, ?_⟩
      apply mem_trace_of_mem_staging
      apply mem_stagingPhase_of_mem_cont hp2
      rw [stageDir_eq_ok hcont]
      exact List.mem_cons_of_mem _
        (List.mem_map_of_mem Event.gitOp (mem_stageOps.2 ⟨r, hr, hn, rfl⟩))

/-- Witness for C9: in the concrete run with reported `public` rows, the
status query for the `public` subdirectory is issued, and the operation for
the changed row runs against the configured root. -/
theorem c9_witness :
    Event.statusQuery (pathJoin (dirOf s0 bp0) publicSub) ∈
      (SyncBlog envRows s0 bp0).trace ∧
    opDir (opFor (dirOf s0 bp0) publicSub rowChanged) = dirOf s0 bp0 ∧
    Event.gitOp (opFor (dirOf s0 bp0) publicSub rowChanged) ∈
      (SyncBlog envRows s0 bp0).trace := by
  have h := c9_status_dir_vs_op_args envRows s0 bp0
  have h2 := h.2.1 [rowChanged, rowDeleted] (by decide)
    (opFor (dirOf s0 bp0) publicSub rowChanged) (by decide)
  exact ⟨h.1, h2.1, h2.2.2⟩

/-- C10: the two watched subdirectories are processed strictly sequentially:
when the `public` status computation reports rows, every `public` per-path
operation is issued, and the trace either ends at the staging-failure notice
with the `content` subdirectory never queried (when some `public` operation
fails), or continues with the `content` status query strictly after all
`public` operations (when they all settle cleanly). -/
theorem c10_public_before_content (env : Env) (s : Settings) (bp : String) :
    ∀ rows, env.statusOf (pathJoin (dirOf s bp) publicSub) = Except.ok rows →
      (∀ e, firstError env (stageOps (dirOf s bp) publicSub rows) = some e →
        (SyncBlog env s bp).trace =
          Event.notice startNoticeMsg none ::
            Event.statusQuery (pathJoin (dirOf s bp) publicSub) ::
            (stageOps (dirOf s bp) publicSub rows).map Event.gitOp ++
            [Event.notice (stageFailMsg ++ e.msg) (some 10000)]) ∧
      (firstError env (stageOps (dirOf s bp) publicSub rows) = none →
        ∃ rest, (SyncBlog env s bp).trace =
          Event.notice startNoticeMsg none ::
            Event.statusQuery (pathJoin (dirOf s bp) publicSub) ::
            (stageOps (dirOf s bp) publicSub rows).map Event.gitOp ++
            (Event.statusQuery (pathJoin (dirOf s bp) contentSub) :: rest)) := by
  intro rows hpub
  have hd := stageDir_eq_ok hpub
  constructor
  · intro e hfe
    have hp2 : (stageDir env (dirOf s bp) publicSub).2 = some e := by
      rw [hd]
      exact hfe
    have hstg : (stagingPhase env (dirOf s bp)).2 = some e := by
      rw [stagingPhase_eq_fail hp2]
    rw [syncBlog_trace, syncTail_stageFail hstg, stagingPhase_eq_fail hp2, hd]
  · intro hfe
    have hp2 : (stageDir env (dirOf s bp) publicSub).2 = none := by
      rw [hd]
      exact hfe
    cases hc : env.statusOf (pathJoin (dirOf s bp) contentSub) with
    | error e2 =>
      refine ⟨(syncTail env s (dirOf s bp)).1, ?_⟩
      rw [syncBlog_trace, stagingPhase_eq_ok hp2, hd, stageDir_eq_err hc]
      simp [List.cons_append, List.append_assoc]
    | ok rows2 =>
      refine ⟨(stageOps (dirOf s bp) contentSub rows2).map Event.gitOp ++
        (syncTail env s (dirOf s bp)).1, ?_⟩
      rw [syncBlog_trace, stagingPhase_eq_ok hp2, hd, stageDir_eq_ok hc]
      simp [List.cons_append, List.append_assoc]

/-- Witness for C10: in the concrete run whose `public` operations fail, the
trace is exactly the start notice, the `public` status query, both `public`
operations, and the staging-failure notice — the `content` subdirectory is
never queried. -/
theorem c10_witness :
    (SyncBlog envOpFail s0 bp0).trace =
      Event.notice startNoticeMsg none ::
        Event.statusQuery (pathJoin (dirOf s0 bp0) publicSub) ::
        (stageOps (dirOf s0 bp0) publicSub [rowChanged, rowDeleted]).map Event.gitOp ++
        [Event.notice (stageFailMsg ++ "index locked") (some 10000)] :=
  ((c10_public_before_content envOpFail s0 bp0) [rowChanged, rowDeleted]
    (by decide)).1 { msg := "index locked" } (by decide)

end GithubBlogSync
